import Mathlib

/-!
Verification of the scholar-alert-digest pipeline (main.go).

Modelling conventions:
* Go strings are byte sequences; we model them as `List Nat` (`GoStr`),
  each entry one byte.  String literals used by the program are ASCII, so
  `ascii` converts a Lean literal to its byte list.
* A `Msg` models the outcome of the three XPath queries that
  `extractPapersFromMsg` runs on a successfully fetched and parsed message
  body: the inner texts of the title anchors (`//h3/a`), the raw href
  texts (`//h3/a/@href`) and the abstract texts
  (`//h3/following-sibling::div[2]`).  The Gmail fetch, the HTML parser
  and the XPath engine are external collaborators; the constant XPath
  strings are valid, so `htmlquery.QueryAll` cannot fail on them.
* Go runtime panics (slice bounds, index out of range) abort the process;
  they are modelled by the `GoPanic` error of an outer `Except` layer,
  while the Go-level `([]paper, error)` return value is the inner
  `List Paper × Option ExtractError` pair (`nil` error = `none`).
* The Go map `map[paper]int` is modelled as an association list with the
  same key equality Go uses for struct map keys: structural equality of
  the whole `paper` value (Title, URL and Abstract).
-/

namespace SAD

/-- A Go string, as its sequence of bytes. -/
abbrev GoStr := List Nat

/-- Byte list of an ASCII Lean string literal. -/
def ascii (s : String) : GoStr := s.toList.map Char.toNat

/-- The `labelName` constant (main.go line 41). -/
def labelName : GoStr := ascii "[-oss-]-_ml-in-se"

/-- The `scholarURL` constant (main.go line 42). -/
def scholarURL : GoStr := ascii "http://scholar.google.com/scholar_url?url="

/-- The `abstract` struct (main.go lines 317-319). -/
structure Abstract where
  Full : GoStr
  FirstLine : GoStr
  RestLines : GoStr
deriving DecidableEq, Repr

/-- The `paper` struct (main.go lines 312-315). -/
structure Paper where
  Title : GoStr
  URL : GoStr
  Abstract : Abstract
deriving DecidableEq, Repr

/-- ASCII white-space test used to model `strings.TrimSpace`. -/
def isSpaceB (b : Nat) : Bool :=
  b = 9 || b = 10 || b = 11 || b = 12 || b = 13 || b = 32

/-- Model of `strings.TrimSpace`: drop leading and trailing white space.
(The Unicode space classes beyond ASCII are not exercised here.) -/
def trimSpace (s : GoStr) : GoStr :=
  ((s.dropWhile isSpaceB).reverse.dropWhile isSpaceB).reverse

/-- `separateFirstLine` (main.go lines 226-233): remove every newline
byte, then split at 80 bytes.  Returns the pair (first, rest) standing
for the two-element slice the Go function returns. -/
def separateFirstLine (text : GoStr) : GoStr × GoStr :=
  let t := text.filter (fun b => b ≠ 10)
  if t.length < 80 then (t, [])
  else (t.take 80, t.drop 80)

/-- Boolean list-prefix test (model of the check inside `strings.TrimPrefix`). -/
def pfxOf : GoStr → GoStr → Bool
  | [], _ => true
  | _, [] => false
  | a :: as, b :: bs => a = b && pfxOf as bs

/-- Model of `strings.TrimPrefix p s`: drop `p` when it heads `s`, else `s`. -/
def goTrimPfx (p s : GoStr) : GoStr :=
  if pfxOf p s then s.drop p.length else s

/-- Model of `strings.Index s b` for a single byte: index of the first
occurrence, `none` standing for Go's `-1`. -/
def goIndex (b : Nat) : GoStr → Option Nat
  | [] => none
  | c :: rest => if c = b then some 0 else (goIndex b rest).map (· + 1)

/-- Hex-digit test of `net/url` (`ishex`). -/
def ishexB (c : Nat) : Bool :=
  (48 ≤ c && c ≤ 57) || (97 ≤ c && c ≤ 102) || (65 ≤ c && c ≤ 70)

/-- Hex-digit value of `net/url` (`unhex`). -/
def unhexB (c : Nat) : Nat :=
  if 48 ≤ c ∧ c ≤ 57 then c - 48
  else if 97 ≤ c ∧ c ≤ 102 then c - 97 + 10
  else if 65 ≤ c ∧ c ≤ 70 then c - 65 + 10
  else 0

/-- Model of `url.QueryUnescape`: `%XY` decodes when both digits are hex
(otherwise the whole call fails), `+` becomes a space, anything else is
kept.  `none` models the non-nil error return. -/
def queryUnescape : GoStr → Option GoStr
  | [] => some []
  | c :: rest =>
    if c = 37 then
      match rest with
      | a :: b :: rest2 =>
        if ishexB a && ishexB b then
          (queryUnescape rest2).map (fun r => (unhexB a * 16 + unhexB b) :: r)
        else none
      | _ => none
    else if c = 43 then (queryUnescape rest).map (fun r => 32 :: r)
    else (queryUnescape rest).map (fun r => c :: r)

/-- Upper-case hex digit byte for a value below 16 (`"0123456789ABCDEF"`). -/
def hexUpper (d : Nat) : Nat := if d < 10 then 48 + d else 55 + d

/-- Bytes a query component keeps verbatim (`shouldEscape` with
`encodeQueryComponent` returning false): alphanumerics and `-_.~`. -/
def isUnreservedQuery (c : Nat) : Bool :=
  (48 ≤ c && c ≤ 57) || (65 ≤ c && c ≤ 90) || (97 ≤ c && c ≤ 122) ||
    c = 45 || c = 95 || c = 46 || c = 126

/-- Per-byte encoding of `url.QueryEscape`: keep unreserved bytes, turn a
space into `+`, percent-encode the rest with upper-case hex. -/
def escByte (c : Nat) : GoStr :=
  if isUnreservedQuery c then [c]
  else if c = 32 then [43]
  else [37, hexUpper (c / 16), hexUpper (c % 16)]

/-- Model of `url.QueryEscape`. -/
def queryEscape : GoStr → GoStr
  | [] => []
  | c :: rest => escByte c ++ queryEscape rest

/-- The URL normalization applied to one raw href (main.go lines
210-211): strip `scholarURL`, truncate at the first `&`, URL-decode.
`none` covers both a missing `&` (where the real code would panic) and a
decode failure. -/
def hrefURL (raw : GoStr) : Option GoStr :=
  let longURL := goTrimPfx scholarURL raw
  match goIndex 38 longURL with
  | none => none
  | some i => queryUnescape (longURL.take i)

/-- Go runtime panics the extraction loop can hit. -/
inductive GoPanic where
  /-- `abss[i]` with `i` out of range (main.go line 208). -/
  | indexOutOfRange
  /-- `longURL[:-1]` when `strings.Index` returned `-1` (main.go line 211). -/
  | sliceOutOfRange
deriving DecidableEq, Repr

/-- The error returns of `extractPapersFromMsg` (main.go lines 169, 175, 194). -/
inductive ExtractError where
  /-- `gmailutils.MessageTextBody` failed (line 169). -/
  | getBodyError
  /-- `htmlquery.Parse` failed (line 175). -/
  | parseError
  /-- `titles %d != %d urls` (line 194). -/
  | structureMismatch (nTitles nURLs : Nat)
deriving DecidableEq, Repr

/-- The query results of one parsed message: title anchor texts, raw href
texts, abstract texts. -/
structure Msg where
  titles : List GoStr
  urls : List GoStr
  abss : List GoStr
deriving DecidableEq, Repr

/-- The per-entry loop of `extractPapersFromMsg` (main.go lines 205-222),
walking title/url pairs with the running index `i` used to address the
abstract nodes.  A decode failure skips the entry; the two panic sites
abort. -/
def extractEntries : List (GoStr × GoStr) → List GoStr → Nat →
    Except GoPanic (List Paper)
  | [], _, _ => .ok []
  | (t, u) :: rest, abss, i =>
    match abss[i]? with
    | none => .error .indexOutOfRange
    | some a =>
      let title := trimSpace t
      let absTxt := trimSpace a
      let longURL := goTrimPfx scholarURL u
      match goIndex 38 longURL with
      | none => .error .sliceOutOfRange
      | some j =>
        match queryUnescape (longURL.take j) with
        | none => extractEntries rest abss (i + 1)
        | some url =>
          match extractEntries rest abss (i + 1) with
          | .error p => .error p
          | .ok ps =>
            .ok (⟨title, url,
              ⟨absTxt, (separateFirstLine absTxt).1, (separateFirstLine absTxt).2⟩⟩ :: ps)

/-- `extractPapersFromMsg` (main.go lines 164-224) from the query results
on: the outer `Except` is abnormal termination (a Go panic), the inner
pair is the Go `([]paper, error)` return, with `none` for a nil error. -/
def extractPapersFromMsg (m : Msg) : Except GoPanic (List Paper × Option ExtractError) :=
  if m.titles.length ≠ m.urls.length then
    .ok ([], some (.structureMismatch m.titles.length m.urls.length))
  else
    (extractEntries (m.titles.zip m.urls) m.abss 0).map (fun ps => (ps, none))

/-- The `map[paper]int` of the aggregation, as an association list whose
key equality is Go's struct equality on `paper` (all three fields). -/
abbrev Counts := List (Paper × Nat)

/-- `uniqTitles[paper]++` (main.go line 157): increment an existing
key's count or append the key with count 1. -/
def bump (m : Counts) (p : Paper) : Counts :=
  match m with
  | [] => [(p, 1)]
  | (q, n) :: rest => if q = p then (q, n + 1) :: rest else (q, n) :: bump rest p

/-- Go map read with the zero-value default: `m[p]`, 0 when absent. -/
def lookupC (m : Counts) (p : Paper) : Nat :=
  match m with
  | [] => 0
  | (q, n) :: rest => if q = p then n else lookupC rest p

/-- One message's extraction result as the aggregation loop sees it:
the `([]paper, error)` pair. -/
abbrev MsgRes := List Paper × Option ExtractError

/-- One iteration of the loop in `extractPapersFromMsgs` (main.go lines
148-159): an errored message bumps `errCount` and is skipped, otherwise
its papers extend `titlesCount` and the counts map. -/
def aggStep (acc : Nat × Nat × Counts) (r : MsgRes) : Nat × Nat × Counts :=
  match r.2 with
  | some _ => (acc.1 + 1, acc.2.1, acc.2.2)
  | none => (acc.1, acc.2.1 + r.1.length, r.1.foldl bump acc.2.2)

/-- The aggregation over a sequence of per-message extraction results,
returning `(errCount, titlesCount, uniqTitles)` (main.go lines 143-162). -/
def aggregate (rs : List MsgRes) : Nat × Nat × Counts :=
  rs.foldl aggStep (0, 0, [])

/-- `extractPapersFromMsgs` over modelled messages: `none` when some
message panics (the Go process dies and produces nothing). -/
def extractPapersFromMsgs (msgs : List Msg) : Option (Nat × Nat × Counts) :=
  if msgs.all (fun m => (extractPapersFromMsg m).isOk) then
    some (aggregate (msgs.map (fun m =>
      match extractPapersFromMsg m with
      | .ok r => r
      | .error _ => ([], none))))
  else none

/-- `sortedKeys` (main.go lines 294-310): the map's keys sorted by the
comparator `m[s[i]] > m[s[j]]`, i.e. into weakly descending counts.  Go's
`sort.Sort` guarantees sortedness (and nothing about ties); any correct
sort models it, here insertion sort. -/
def sortedKeys (m : Counts) : List Paper :=
  List.insertionSort (fun a b => lookupC m b ≤ lookupC m a) (m.map Prod.fst)

/-- Observable outcome of the label plumbing of one run: which label
string is passed to `gmailutils.UnreadMessagesInLabel`, and the value of
the global `gmailLabel` after `fetchGmailMsgs` ran its env check. -/
structure FetchObs where
  queried : GoStr
  globalAfter : GoStr
deriving DecidableEq, Repr

/-- Label plumbing of `main` and `fetchGmailMsgs` (main.go lines 110 and
132-141): `main` passes `*gmailLabel` — the flag's value — as the `label`
argument; `fetchGmailMsgs` repoints the global `gmailLabel` at the
`SAD_LABEL` env value when set, then queries with its `label` parameter. -/
def fetchGmailMsgsLabel (flagValue : GoStr) (envSadLabel : Option GoStr) : FetchObs :=
  let labelParam := flagValue
  let globalAfter := match envSadLabel with
    | some e => e
    | none => flagValue
  ⟨labelParam, globalAfter⟩

/-- Extraction returned the Go pair with a nil error. -/
def resultClean : Except GoPanic (List Paper × Option ExtractError) → Bool
  | .ok (_, none) => true
  | _ => false

/-- Number of papers in a returned pair (0 on panic). -/
def resultLen : Except GoPanic (List Paper × Option ExtractError) → Nat
  | .ok (ps, _) => ps.length
  | .error _ => 0

/-- Occurrences of `p` in a paper list under Go's full struct equality. -/
def occ (p : Paper) : List Paper → Nat
  | [] => 0
  | q :: rest => occ p rest + (if q = p then 1 else 0)

/-- Number of errored results in a result sequence. -/
def errTally : List MsgRes → Nat
  | [] => 0
  | r :: rest => errTally rest + (if r.2.isSome then 1 else 0)

/-- Total papers contributed by the non-errored results. -/
def titleTally : List MsgRes → Nat
  | [] => 0
  | r :: rest => titleTally rest + (if r.2.isSome then 0 else r.1.length)

/-- Occurrences of `p` across the non-errored results. -/
def occTally (p : Paper) : List MsgRes → Nat
  | [] => 0
  | r :: rest => occTally p rest + (if r.2.isSome then 0 else occ p r.1)

/-- Number of hrefs whose normalization fails to produce a URL. -/
def decodeFailTally : List GoStr → Nat
  | [] => 0
  | u :: rest => decodeFailTally rest + (if (hrefURL u).isNone then 1 else 0)

end SAD

namespace SAD

/-- Claim C2: a message whose title-node count differs from its url-node
count makes `extractPapersFromMsg` return the `titles != urls` error and
a nil (empty) paper slice. -/
theorem mismatch_returns_structure_error (m : Msg)
    (h : m.titles.length ≠ m.urls.length) :
    extractPapersFromMsg m =
      .ok ([], some (.structureMismatch m.titles.length m.urls.length)) := by
  unfold extractPapersFromMsg
  rw [if_pos h]

/-- Witness for the mismatch claim: a message with one title node and no
url node. -/
theorem mismatch_returns_structure_error_witness :
    (Msg.mk [ascii "T"] [] []).titles.length ≠ (Msg.mk [ascii "T"] [] []).urls.length ∧
    extractPapersFromMsg (Msg.mk [ascii "T"] [] []) =
      .ok ([], some (.structureMismatch (Msg.mk [ascii "T"] [] []).titles.length
        (Msg.mk [ascii "T"] [] []).urls.length)) :=
  ⟨by decide, mismatch_returns_structure_error _ (by decide)⟩

/-- Claim C10 (amended): when the abstract query returns fewer nodes
than the title query, the indexed access `abss[i]` is NOT guarded — on a
message with one title/url pair and no abstract node the loop panics
with an index-out-of-range error. -/
theorem missing_abstract_panics (t u : GoStr) :
    extractPapersFromMsg (Msg.mk [t] [u] []) = .error .indexOutOfRange := rfl

/-- Claim C10 counterexample: equal title/url counts, no abstract node:
extraction hits the unguarded `abss[0]` and panics instead of staying
total. -/
theorem missing_abstract_counterexample :
    (Msg.mk [ascii "T"] [ascii "u"] []).titles.length =
      (Msg.mk [ascii "T"] [ascii "u"] []).urls.length ∧
    (Msg.mk [ascii "T"] [ascii "u"] []).abss.length <
      (Msg.mk [ascii "T"] [ascii "u"] []).titles.length ∧
    extractPapersFromMsg (Msg.mk [ascii "T"] [ascii "u"] []) = .error .indexOutOfRange :=
  ⟨by decide, by decide, rfl⟩

/-- Claim C9 (amended): when the stripped href contains no `&`,
`strings.Index` yields -1 and the slice `longURL[:-1]` panics: the entry
is neither returned nor skipped. -/
theorem no_amp_panics (t u a : GoStr)
    (h : goIndex 38 (goTrimPfx scholarURL u) = none) :
    extractPapersFromMsg (Msg.mk [t] [u] [a]) = .error .sliceOutOfRange := by
  unfold extractPapersFromMsg
  rw [if_neg (by simp)]
  show (extractEntries [(t, u)] [a] 0).map (fun ps => (ps, none)) = _
  simp only [extractEntries, List.getElem?_cons_zero, h]
  rfl

/-- Witness for the missing-`&` panic on a concrete href. -/
theorem no_amp_panics_witness :
    goIndex 38 (goTrimPfx scholarURL (ascii "nothing-here")) = none ∧
    extractPapersFromMsg (Msg.mk [ascii "X"] [ascii "nothing-here"] [ascii "b"]) =
      .error .sliceOutOfRange :=
  ⟨by decide, no_amp_panics _ _ _ (by decide)⟩

/-- Claim C9 counterexample: a message whose only href has no `&` after
prefix stripping; extraction panics rather than returning or skipping
the entry. -/
theorem no_amp_counterexample :
    extractPapersFromMsg (Msg.mk [ascii "T"] [ascii "http://nope"] [ascii "a"]) =
      .error .sliceOutOfRange ∧
    (Msg.mk [ascii "T"] [ascii "http://nope"] [ascii "a"]).titles.length =
      (Msg.mk [ascii "T"] [ascii "http://nope"] [ascii "a"]).urls.length :=
  ⟨rfl, rfl⟩

/-- Claim C8: the label actually queried is always the flag's value; the
`SAD_LABEL` env value only repoints the (subsequently unused) global, so
the documented env-var override never reaches the fetch. -/
theorem env_label_override_ignored :
    (∀ (flagValue : GoStr) (envSadLabel : Option GoStr),
      (fetchGmailMsgsLabel flagValue envSadLabel).queried = flagValue) ∧
    (fetchGmailMsgsLabel labelName (some (ascii "custom"))).globalAfter = ascii "custom" ∧
    ascii "custom" ≠ labelName :=
  ⟨fun _ _ => rfl, rfl, by decide⟩

/-- Claim C1 counterexample: two extracted papers sharing Title and URL
but with different Abstracts do NOT collapse: the counts map keeps two
entries of count 1 each (Go struct map keys compare all fields). -/
theorem abstract_in_key_counterexample :
    lookupC (aggregate
      [([Paper.mk (ascii "T") (ascii "U") (Abstract.mk (ascii "A1") (ascii "A1") [])], none),
       ([Paper.mk (ascii "T") (ascii "U") (Abstract.mk (ascii "A2") (ascii "A2") [])], none)]).2.2
      (Paper.mk (ascii "T") (ascii "U") (Abstract.mk (ascii "A1") (ascii "A1") [])) = 1 ∧
    (aggregate
      [([Paper.mk (ascii "T") (ascii "U") (Abstract.mk (ascii "A1") (ascii "A1") [])], none),
       ([Paper.mk (ascii "T") (ascii "U") (Abstract.mk (ascii "A2") (ascii "A2") [])], none)]).2.2.length
      = 2 ∧
    (Paper.mk (ascii "T") (ascii "U") (Abstract.mk (ascii "A1") (ascii "A1") [])).Title =
      (Paper.mk (ascii "T") (ascii "U") (Abstract.mk (ascii "A2") (ascii "A2") [])).Title ∧
    (Paper.mk (ascii "T") (ascii "U") (Abstract.mk (ascii "A1") (ascii "A1") [])).URL =
      (Paper.mk (ascii "T") (ascii "U") (Abstract.mk (ascii "A2") (ascii "A2") [])).URL ∧
    (Paper.mk (ascii "T") (ascii "U") (Abstract.mk (ascii "A1") (ascii "A1") [])) ≠
      (Paper.mk (ascii "T") (ascii "U") (Abstract.mk (ascii "A2") (ascii "A2") [])) := by
  decide

/-- Claim C5: `separateFirstLine` removes newlines, then `FirstLine` is
the first min(L, 80) bytes, the two parts concatenate back to the
cleaned text, and a short text goes whole into `FirstLine`. -/
theorem separateFirstLine_spec (text : GoStr) :
    (separateFirstLine text).1.length = min (text.filter (fun b => b ≠ 10)).length 80 ∧
    (separateFirstLine text).1 ++ (separateFirstLine text).2 =
      text.filter (fun b => b ≠ 10) ∧
    ((text.filter (fun b => b ≠ 10)).length < 80 →
      (separateFirstLine text).1 = text.filter (fun b => b ≠ 10) ∧
      (separateFirstLine text).2 = []) := by
  simp only [separateFirstLine]
  by_cases h : (text.filter (fun b => b ≠ 10)).length < 80
  · rw [if_pos h]
    refine ⟨?_, by simp, fun _ => ⟨rfl, rfl⟩⟩
    show (text.filter (fun b => b ≠ 10)).length =
      min (text.filter (fun b => b ≠ 10)).length 80
    omega
  · rw [if_neg h]
    refine ⟨?_, List.take_append_drop _ _, fun hlt => absurd hlt h⟩
    simp [List.length_take]; omega

/-- Witness for the `separateFirstLine` split on a concrete short text
containing a newline. -/
theorem separateFirstLine_spec_witness :
    (separateFirstLine (ascii "ab" ++ [10] ++ ascii "cd")).1.length =
      min ((ascii "ab" ++ [10] ++ ascii "cd").filter (fun b => b ≠ 10)).length 80 ∧
    (separateFirstLine (ascii "ab" ++ [10] ++ ascii "cd")).1 ++
        (separateFirstLine (ascii "ab" ++ [10] ++ ascii "cd")).2 =
      (ascii "ab" ++ [10] ++ ascii "cd").filter (fun b => b ≠ 10) ∧
    (((ascii "ab" ++ [10] ++ ascii "cd").filter (fun b => b ≠ 10)).length < 80 →
      (separateFirstLine (ascii "ab" ++ [10] ++ ascii "cd")).1 =
        (ascii "ab" ++ [10] ++ ascii "cd").filter (fun b => b ≠ 10) ∧
      (separateFirstLine (ascii "ab" ++ [10] ++ ascii "cd")).2 = []) :=
  separateFirstLine_spec (ascii "ab" ++ [10] ++ ascii "cd")

end SAD

namespace SAD

theorem lookupC_bump (c : Counts) (q p : Paper) :
    lookupC (bump c q) p = lookupC c p + (if q = p then 1 else 0) := by
  induction c with
  | nil => by_cases h : q = p <;> simp [bump, lookupC, h]
  | cons hd rest ih =>
    obtain ⟨q', n⟩ := hd
    by_cases h1 : q' = q
    · subst h1
      by_cases h2 : q' = p <;> simp [bump, lookupC, h2]
    · by_cases h2 : q' = p
      · subst h2
        have hqp : ¬ q = q' := fun he => h1 he.symm
        simp [bump, lookupC, h1, hqp]
      · simp [bump, lookupC, h1, h2, ih]

theorem lookupC_foldl_bump (ps : List Paper) (c : Counts) (p : Paper) :
    lookupC (ps.foldl bump c) p = lookupC c p + occ p ps := by
  induction ps generalizing c with
  | nil => simp [occ]
  | cons q rest ih =>
    rw [List.foldl_cons, ih, lookupC_bump]
    by_cases h : q = p <;> simp [occ, h] <;> try omega

theorem aggregate_foldl_char (rs : List MsgRes) : ∀ acc : Nat × Nat × Counts,
    (List.foldl aggStep acc rs).1 = acc.1 + errTally rs ∧
    (List.foldl aggStep acc rs).2.1 = acc.2.1 + titleTally rs ∧
    ∀ p, lookupC (List.foldl aggStep acc rs).2.2 p = lookupC acc.2.2 p + occTally p rs := by
  induction rs with
  | nil => intro acc; simp [errTally, titleTally, occTally]
  | cons r rest ih =>
    intro acc
    rw [List.foldl_cons]
    obtain ⟨h1, h2, h3⟩ := ih (aggStep acc r)
    cases hr : r.2 with
    | none =>
      refine ⟨?_, ?_, fun p => ?_⟩
      · rw [h1]; simp [aggStep, hr, errTally]
      · rw [h2]; simp [aggStep, hr, titleTally]; omega
      · rw [h3 p]; simp [aggStep, hr, occTally, lookupC_foldl_bump]; omega
    | some e =>
      refine ⟨?_, ?_, fun p => ?_⟩
      · rw [h1]; simp [aggStep, hr, errTally]; omega
      · rw [h2]; simp [aggStep, hr, titleTally]
      · rw [h3 p]; simp [aggStep, hr, occTally]

theorem errTally_perm {l₁ l₂ : List MsgRes} (h : l₁.Perm l₂) :
    errTally l₁ = errTally l₂ := by
  induction h with
  | nil => rfl
  | cons x h ih => simp [errTally, ih]
  | swap x y l => simp [errTally]; omega
  | trans h₁ h₂ ih₁ ih₂ => rw [ih₁, ih₂]

theorem titleTally_perm {l₁ l₂ : List MsgRes} (h : l₁.Perm l₂) :
    titleTally l₁ = titleTally l₂ := by
  induction h with
  | nil => rfl
  | cons x h ih => simp [titleTally, ih]
  | swap x y l => simp [titleTally]; omega
  | trans h₁ h₂ ih₁ ih₂ => rw [ih₁, ih₂]

theorem occTally_perm {l₁ l₂ : List MsgRes} (h : l₁.Perm l₂) (p : Paper) :
    occTally p l₁ = occTally p l₂ := by
  induction h with
  | nil => rfl
  | cons x h ih => simp [occTally, ih]
  | swap x y l => simp [occTally]; omega
  | trans h₁ h₂ ih₁ ih₂ => rw [ih₁, ih₂]

/-- Claim C1 (amended): the aggregation map's key is the whole `paper`
record — Title, URL AND Abstract.  A paper's count equals the number of
occurrences, across the non-errored messages, of papers equal in all
three fields; papers agreeing only on Title and URL stay separate keys
and their counts do not add. -/
theorem aggregate_key_includes_abstract (rs : List MsgRes) (p : Paper) :
    lookupC (aggregate rs).2.2 p = occTally p rs := by
  have h := (aggregate_foldl_char rs (0, 0, [])).2.2 p
  simpa [aggregate, lookupC] using h

/-- Claim C6: aggregation is order-independent — permuting the
per-message extraction results leaves the error count, the total-titles
count and every paper's occurrence count unchanged. -/
theorem aggregate_perm_invariant (rs₁ rs₂ : List MsgRes) (h : rs₁.Perm rs₂) (p : Paper) :
    (aggregate rs₁).1 = (aggregate rs₂).1 ∧
    (aggregate rs₁).2.1 = (aggregate rs₂).2.1 ∧
    lookupC (aggregate rs₁).2.2 p = lookupC (aggregate rs₂).2.2 p := by
  obtain ⟨a1, a2, a3⟩ := aggregate_foldl_char rs₁ (0, 0, [])
  obtain ⟨b1, b2, b3⟩ := aggregate_foldl_char rs₂ (0, 0, [])
  unfold aggregate
  refine ⟨?_, ?_, ?_⟩
  · rw [a1, b1, errTally_perm h]
  · rw [a2, b2, titleTally_perm h]
  · rw [a3 p, b3 p, occTally_perm h p]

/-- Witness for order independence: a two-element result list and its
swap, observed at a concrete paper. -/
theorem aggregate_perm_invariant_witness :
    (aggregate [([Paper.mk (ascii "T") (ascii "U") (Abstract.mk [] [] [])], none),
       ([], some ExtractError.parseError)]).1 =
      (aggregate [([], some ExtractError.parseError),
        ([Paper.mk (ascii "T") (ascii "U") (Abstract.mk [] [] [])], none)]).1 ∧
    (aggregate [([Paper.mk (ascii "T") (ascii "U") (Abstract.mk [] [] [])], none),
       ([], some ExtractError.parseError)]).2.1 =
      (aggregate [([], some ExtractError.parseError),
        ([Paper.mk (ascii "T") (ascii "U") (Abstract.mk [] [] [])], none)]).2.1 ∧
    lookupC (aggregate [([Paper.mk (ascii "T") (ascii "U") (Abstract.mk [] [] [])], none),
       ([], some ExtractError.parseError)]).2.2
      (Paper.mk (ascii "T") (ascii "U") (Abstract.mk [] [] [])) =
    lookupC (aggregate [([], some ExtractError.parseError),
        ([Paper.mk (ascii "T") (ascii "U") (Abstract.mk [] [] [])], none)]).2.2
      (Paper.mk (ascii "T") (ascii "U") (Abstract.mk [] [] [])) :=
  aggregate_perm_invariant _ _
    (List.Perm.swap ([], some ExtractError.parseError)
      ([Paper.mk (ascii "T") (ascii "U") (Abstract.mk [] [] [])], none) [])
    (Paper.mk (ascii "T") (ascii "U") (Abstract.mk [] [] []))

/-- Claim C7: the key sequence produced for rendering is in weakly
descending occurrence count — each element's count is at least the next
element's count. -/
theorem sortedKeys_desc_chain (m : Counts) :
    List.Chain' (fun a b => lookupC m b ≤ lookupC m a) (sortedKeys m) := by
  haveI h1 : IsTotal Paper (fun a b => lookupC m b ≤ lookupC m a) :=
    ⟨fun a b => le_total (lookupC m b) (lookupC m a)⟩
  haveI h2 : IsTrans Paper (fun a b => lookupC m b ≤ lookupC m a) :=
    ⟨fun a b c hab hbc => le_trans hbc hab⟩
  have hs : List.Sorted (fun a b => lookupC m b ≤ lookupC m a) (sortedKeys m) :=
    List.sorted_insertionSort _ _
  exact List.Pairwise.chain' hs

end SAD

namespace SAD

theorem pfxOf_self_append (p r : GoStr) : pfxOf p (p ++ r) = true := by
  induction p with
  | nil => cases r <;> rfl
  | cons a as ih => simp [pfxOf, ih]

theorem goTrimPfx_self_append (p r : GoStr) : goTrimPfx p (p ++ r) = r := by
  simp [goTrimPfx, pfxOf_self_append, List.drop_left]

theorem amp_notin_escByte (c : Nat) : ¬ (38 ∈ escByte c) := by
  unfold escByte
  by_cases h1 : isUnreservedQuery c = true
  · rw [if_pos h1]
    intro hm
    rw [List.mem_singleton] at hm
    subst hm
    exact absurd h1 (by decide)
  · rw [if_neg h1]
    by_cases h2 : c = 32
    · rw [if_pos h2]
      intro hm
      rw [List.mem_singleton] at hm
      exact absurd hm (by decide)
    · rw [if_neg h2]
      intro hm
      rcases List.mem_cons.mp hm with h | hm2
      · exact absurd h (by decide)
      rcases List.mem_cons.mp hm2 with h | hm3
      · unfold hexUpper at h; split at h <;> omega
      rcases List.mem_cons.mp hm3 with h | hm4
      · unfold hexUpper at h; split at h <;> omega
      · exact absurd hm4 (List.not_mem_nil _)

theorem amp_notin_queryEscape (u : GoStr) : ¬ (38 ∈ queryEscape u) := by
  induction u with
  | nil => simp [queryEscape]
  | cons c rest ih =>
    intro h
    rw [show queryEscape (c :: rest) = escByte c ++ queryEscape rest from rfl] at h
    rcases List.mem_append.mp h with h | h
    · exact amp_notin_escByte c h
    · exact ih h

theorem goIndex_append_amp (l r : GoStr) (hl : ¬ (38 ∈ l)) :
    goIndex 38 (l ++ 38 :: r) = some l.length := by
  induction l with
  | nil => simp [goIndex]
  | cons c cs ih =>
    have hc : c ≠ 38 := by
      intro he; subst he; exact hl (List.mem_cons_self _ _)
    have hcs : ¬ (38 ∈ cs) := fun h => hl (List.mem_cons_of_mem c h)
    simp [goIndex, hc, ih hcs]

theorem ishexB_hexUpper : ∀ d, d < 16 → ishexB (hexUpper d) = true := by decide

theorem unhexB_hexUpper : ∀ d, d < 16 → unhexB (hexUpper d) = d := by decide

theorem queryUnescape_pct (a b : Nat) (tail : GoStr)
    (ha : ishexB a = true) (hb : ishexB b = true) :
    queryUnescape (37 :: a :: b :: tail) =
      (queryUnescape tail).map (fun r => (unhexB a * 16 + unhexB b) :: r) := by
  simp [queryUnescape, ha, hb]

theorem queryUnescape_plus (tail : GoStr) :
    queryUnescape (43 :: tail) = (queryUnescape tail).map (fun r => 32 :: r) := by
  conv_lhs => rw [queryUnescape.eq_def]
  simp

theorem queryUnescape_plain (c : Nat) (tail : GoStr) (h37 : c ≠ 37) (h43 : c ≠ 43) :
    queryUnescape (c :: tail) = (queryUnescape tail).map (fun r => c :: r) := by
  conv_lhs => rw [queryUnescape.eq_def]
  simp [h37, h43]

theorem unescape_escape (u : GoStr) (hu : ∀ b ∈ u, b < 256) :
    queryUnescape (queryEscape u) = some u := by
  induction u with
  | nil => rfl
  | cons c rest ih =>
    have hc : c < 256 := hu c (List.mem_cons_self _ _)
    have hrest : ∀ b ∈ rest, b < 256 := fun b hb => hu b (List.mem_cons_of_mem _ hb)
    have ihr := ih hrest
    show queryUnescape (escByte c ++ queryEscape rest) = some (c :: rest)
    by_cases h1 : isUnreservedQuery c = true
    · have h37 : c ≠ 37 := by intro he; subst he; exact absurd h1 (by decide)
      have h43 : c ≠ 43 := by intro he; subst he; exact absurd h1 (by decide)
      rw [show escByte c = [c] from by simp [escByte, h1]]
      rw [List.singleton_append, queryUnescape_plain c _ h37 h43, ihr]
      rfl
    · by_cases h2 : c = 32
      · subst h2
        rw [show escByte 32 = [43] from by decide]
        rw [List.singleton_append, queryUnescape_plus, ihr]
        rfl
      · rw [show escByte c = [37, hexUpper (c / 16), hexUpper (c % 16)] from by
          simp [escByte, h1, h2]]
        have hd1 : c / 16 < 16 := by omega
        have hd2 : c % 16 < 16 := by omega
        show queryUnescape (37 :: hexUpper (c / 16) :: hexUpper (c % 16) :: queryEscape rest)
          = some (c :: rest)
        rw [queryUnescape_pct _ _ _ (ishexB_hexUpper _ hd1) (ishexB_hexUpper _ hd2), ihr]
        simp [unhexB_hexUpper _ hd1, unhexB_hexUpper _ hd2]
        omega

/-- Claim C4: a raw href of the form `scholarURL + urlencode(u) + "&" +
trailing` extracts to exactly `u`: the prefix is stripped, the text is
truncated at the first `&`, and URL-decoding inverts the encoding.
Stated on a one-entry message; the hypothesis says `u` is a byte string. -/
theorem scholar_url_roundtrip (t a u params : GoStr) (hu : ∀ b ∈ u, b < 256) :
    extractPapersFromMsg
      (Msg.mk [t] [scholarURL ++ queryEscape u ++ 38 :: params] [a]) =
      .ok ([Paper.mk (trimSpace t) u
        (Abstract.mk (trimSpace a) (separateFirstLine (trimSpace a)).1
          (separateFirstLine (trimSpace a)).2)], none) := by
  unfold extractPapersFromMsg
  rw [if_neg (by simp)]
  show (extractEntries [(t, scholarURL ++ queryEscape u ++ 38 :: params)] [a] 0).map
    (fun ps => (ps, none)) = _
  have htrim : goTrimPfx scholarURL (scholarURL ++ queryEscape u ++ 38 :: params) =
      queryEscape u ++ 38 :: params := by
    rw [List.append_assoc]; exact goTrimPfx_self_append _ _
  have hidx : goIndex 38 (queryEscape u ++ 38 :: params) = some (queryEscape u).length :=
    goIndex_append_amp _ _ (amp_notin_queryEscape u)
  have htake : (queryEscape u ++ 38 :: params).take (queryEscape u).length = queryEscape u :=
    List.take_left _ _
  simp only [extractEntries, List.getElem?_cons_zero, htrim, hidx, htake,
    unescape_escape u hu]
  rfl

/-- Witness for the round trip at the spec's concrete URL and trailing
parameters. -/
theorem scholar_url_roundtrip_witness :
    extractPapersFromMsg (Msg.mk [ascii "T"]
      [scholarURL ++ queryEscape (ascii "http://example.com/x?y=1") ++
        38 :: ascii "other=stuff"] [ascii "abs"]) =
      .ok ([Paper.mk (trimSpace (ascii "T")) (ascii "http://example.com/x?y=1")
        (Abstract.mk (trimSpace (ascii "abs"))
          (separateFirstLine (trimSpace (ascii "abs"))).1
          (separateFirstLine (trimSpace (ascii "abs"))).2)], none) :=
  scholar_url_roundtrip _ _ _ _ (by decide)

theorem extractEntries_ok (pairs : List (GoStr × GoStr)) (abss : List GoStr) (i : Nat)
    (habs : i + pairs.length ≤ abss.length)
    (hamp : ∀ pr ∈ pairs, goIndex 38 (goTrimPfx scholarURL pr.2) ≠ none) :
    ∃ ps, extractEntries pairs abss i = .ok ps ∧
      ps.length + decodeFailTally (pairs.map Prod.snd) = pairs.length := by
  induction pairs generalizing i with
  | nil => exact ⟨[], rfl, by simp [decodeFailTally]⟩
  | cons hd rest ih =>
    obtain ⟨t, u⟩ := hd
    have hi : i < abss.length := by
      simp only [List.length_cons] at habs; omega
    obtain ⟨a, ha⟩ : ∃ a, abss[i]? = some a := ⟨abss[i], List.getElem?_eq_getElem hi⟩
    obtain ⟨j, hj⟩ : ∃ j, goIndex 38 (goTrimPfx scholarURL u) = some j := by
      have h := hamp (t, u) (List.mem_cons_self _ _)
      cases hgi : goIndex 38 (goTrimPfx scholarURL u) with
      | none => exact absurd hgi h
      | some j => exact ⟨j, rfl⟩
    obtain ⟨ps, hps, hlen⟩ := ih (i + 1)
      (by simp only [List.length_cons] at habs ⊢; omega)
      (fun pr hpr => hamp pr (List.mem_cons_of_mem _ hpr))
    cases hq : queryUnescape ((goTrimPfx scholarURL u).take j) with
    | none =>
      have hfu : hrefURL u = none := by simp [hrefURL, hj, hq]
      refine ⟨ps, ?_, ?_⟩
      · simp only [extractEntries, ha, hj, hq]
        exact hps
      · simp only [List.map_cons, decodeFailTally, hfu, Option.isNone_none, if_pos,
          List.length_cons]
        omega
    | some url =>
      have hfu : hrefURL u = some url := by simp [hrefURL, hj, hq]
      refine ⟨Paper.mk (trimSpace t) url
        (Abstract.mk (trimSpace a) (separateFirstLine (trimSpace a)).1
          (separateFirstLine (trimSpace a)).2) :: ps, ?_, ?_⟩
      · simp only [extractEntries, ha, hj, hq, hps]
      · simp [decodeFailTally, hfu]
        omega

/-- Claim C3 (amended): when the title and url node counts agree, every
title index has an abstract node, and every stripped href contains a `&`
(so neither panic site fires), extraction succeeds with a nil error and
returns count-minus-decode-failures papers; an empty result is a valid
success. -/
theorem extract_success_length (m : Msg)
    (hlen : m.titles.length = m.urls.length)
    (habs : m.titles.length ≤ m.abss.length)
    (hamp : ∀ u ∈ m.urls, goIndex 38 (goTrimPfx scholarURL u) ≠ none) :
    resultClean (extractPapersFromMsg m) = true ∧
    resultLen (extractPapersFromMsg m) = m.titles.length - decodeFailTally m.urls := by
  have hsnd : (m.titles.zip m.urls).map Prod.snd = m.urls :=
    List.map_snd_zip _ _ (le_of_eq hlen.symm)
  have hplen : (m.titles.zip m.urls).length = m.titles.length := by
    rw [List.length_zip]; omega
  obtain ⟨ps, hps, hl⟩ := extractEntries_ok (m.titles.zip m.urls) m.abss 0
    (by rw [hplen]; omega)
    (fun pr hpr => hamp pr.2 (List.of_mem_zip hpr).2)
  unfold extractPapersFromMsg
  rw [if_neg (by omega)]
  rw [hps]
  rw [hsnd, hplen] at hl
  refine ⟨rfl, ?_⟩
  show ps.length = m.titles.length - decodeFailTally m.urls
  omega

/-- Witness for the success/length law: two well-formed entries, the
second with an undecodable `%zz` escape, giving one paper out of two. -/
theorem extract_success_length_witness :
    resultClean (extractPapersFromMsg (Msg.mk [ascii "A", ascii "B"]
      [scholarURL ++ ascii "abc" ++ 38 :: ascii "x",
       scholarURL ++ ascii "%zz" ++ 38 :: ascii "x"]
      [ascii "a1", ascii "a2"])) = true ∧
    resultLen (extractPapersFromMsg (Msg.mk [ascii "A", ascii "B"]
      [scholarURL ++ ascii "abc" ++ 38 :: ascii "x",
       scholarURL ++ ascii "%zz" ++ 38 :: ascii "x"]
      [ascii "a1", ascii "a2"])) =
      (Msg.mk [ascii "A", ascii "B"]
        [scholarURL ++ ascii "abc" ++ 38 :: ascii "x",
         scholarURL ++ ascii "%zz" ++ 38 :: ascii "x"]
        [ascii "a1", ascii "a2"]).titles.length -
      decodeFailTally (Msg.mk [ascii "A", ascii "B"]
        [scholarURL ++ ascii "abc" ++ 38 :: ascii "x",
         scholarURL ++ ascii "%zz" ++ 38 :: ascii "x"]
        [ascii "a1", ascii "a2"]).urls :=
  extract_success_length _ (by decide) (by decide) (by decide)

/-- Claim C3 counterexample: equal title/url counts alone do not make
extraction succeed — with no abstract node the loop panics instead of
returning a sequence. -/
theorem equal_counts_panic_counterexample :
    (Msg.mk [ascii "T"] [ascii "u&x"] []).titles.length =
      (Msg.mk [ascii "T"] [ascii "u&x"] []).urls.length ∧
    extractPapersFromMsg (Msg.mk [ascii "T"] [ascii "u&x"] []) =
      .error .indexOutOfRange ∧
    resultClean (extractPapersFromMsg (Msg.mk [ascii "T"] [ascii "u&x"] [])) = false :=
  ⟨by decide, rfl, rfl⟩

end SAD
